import Mathlib

/-!
Shallow embedding of qparas `src/main.rs` (the adaptive pagination and
continuation engine) and proofs about the specification's claims.

The embedding keeps the source's structure: a JSON value type mirroring
`serde_json::Value` as used by the program, the query-spec parsing done at
the top of `main`, the per-response processing of the loop body (the
`ParasResponse::Value`, `::Window` and `::Paged` match arms), and the loop
itself driven by the `paged_offset` discriminant.
-/

namespace QParas

/-- JSON values as the program observes them through `serde_json`.
A JSON number appears in `main.rs` only through `Value::as_f64(..).to_string()`
(the decimal rendering of the number) and through `Value::as_str` (which is
`None` on numbers); the `num` constructor therefore carries the number's
decimal string rendering, which is exactly the data the program consumes. -/
inductive Json where
  | null : Json
  | bool : Bool → Json
  | num : String → Json
  | str : String → Json
  | arr : List Json → Json
  | obj : List (String × Json) → Json

/-- `serde_json::Value::get(key)`: a key lookup that succeeds only on objects. -/
def Json.get (j : Json) (key : String) : Option Json :=
  match j with
  | Json.obj fields => (fields.find? (fun p => p.1 == key)).map (fun p => p.2)
  | _ => none

/-- `Value::as_str().map(|s| s.to_string())`. -/
def Json.asStr : Json → Option String
  | Json.str s => some s
  | _ => none

/-- `val.as_str().map(to_string).or_else(|| val.as_f64().map(to_string))`
from the continuation derivation (main.rs lines 205-209): a string leaf is
used verbatim, a numeric leaf is rendered as its decimal string. -/
def leafString : Json → Option String
  | Json.str s => some s
  | Json.num s => some s
  | _ => none

/-- The three shapes of `ParasResponse` (untagged serde enum, main.rs 45-59):
`Paged { data: { results } }`, `Window { data: results }`, `Value(v)`. -/
inductive ParasResponse where
  | paged : List Json → ParasResponse
  | window : List Json → ParasResponse
  | value : Json → ParasResponse

/-- Decimal rendering of a natural number, as `usize::to_string` produces. -/
def natDigits : Nat → Nat → List Char
  | 0, _ => []
  | fuel + 1, n =>
    if n < 10 then [Char.ofNat (48 + n)]
    else natDigits fuel (n / 10) ++ [Char.ofNat (48 + n % 10)]

/-- `usize::to_string`. -/
def natToDecimal (n : Nat) : String := String.mk (natDigits (n + 1) n)

/-- `str::split_once(c)` on the underlying character list: split at the first
occurrence of the character `c`, or `none` when `c` does not occur. -/
def splitOnceChar (c : Char) : List Char → Option (List Char × List Char)
  | [] => none
  | x :: xs =>
    if x = c then some ([], xs)
    else (splitOnceChar c xs).map (fun p => (x :: p.1, p.2))

/-- `query.split_once("=")` (main.rs line 83). -/
def splitOnceEq (s : String) : Option (String × String) :=
  (splitOnceChar '=' s.data).map (fun p => (String.mk p.1, String.mk p.2))

/-- `str::split_once(sep)` for a multi-character separator: split at the
first occurrence of `sep`. -/
def splitOnceSeq (sep : List Char) : List Char → Option (List Char × List Char)
  | [] => none
  | x :: xs =>
    if sep.isPrefixOf (x :: xs) then some ([], (x :: xs).drop sep.length)
    else (splitOnceSeq sep xs).map (fun p => (x :: p.1, p.2))

/-- `spec.split_once("::")` (main.rs line 93). -/
def splitOnceColons (s : String) : Option (String × String) :=
  (splitOnceSeq [':', ':'] s.data).map (fun p => (String.mk p.1, String.mk p.2))

/-- `str::split(c)`: split on every occurrence of `c`, keeping empty pieces. -/
def splitAllChar (c : Char) : List Char → List (List Char)
  | [] => [[]]
  | x :: xs =>
    if x = c then [] :: splitAllChar c xs
    else
      match splitAllChar c xs with
      | [] => [[x]]
      | h :: t => (x :: h) :: t

/-- `k.split(".").collect::<Vec<_>>()` (main.rs line 98). -/
def splitDots (s : String) : List String :=
  (splitAllChar '.' s.data).map String.mk

/-- `queries.iter().map(|q| q.split_once("=")).collect::<Option<Vec<_>>>()`
(main.rs lines 81-85): every token must split on `=`, otherwise the whole
parse is `none` (surfaced as the "invalid query arg" error). -/
def parseQueries : List String → Option (List (String × String))
  | [] => some []
  | t :: ts =>
    match splitOnceEq t, parseQueries ts with
    | some p, some ps => some (p :: ps)
    | _, _ => none

/-- The `__sort` extraction (main.rs lines 90-101): find the first `__sort`
pair, split its value at the first `::`; an empty sort key is a hard error,
otherwise the key is split on `.` into path segments and the direction is
kept opaque. No `__sort` pair, or a value without `::`, yields no sort spec. -/
def sortSpecOf (queries : List (String × String)) :
    Except String (Option (List String × String)) :=
  match (queries.find? (fun p => p.1 == "__sort")).bind (fun p => splitOnceColons p.2) with
  | none => Except.ok none
  | some (k, v) =>
    if k = "" then Except.error "invalid sort key spec"
    else Except.ok (some (splitDots k, v))

/-- `usize::from_str`: optional leading `+`, then one or more digits, value
below `2 ^ 64` (64-bit `usize`). -/
def parseUsize (s : String) : Option Nat :=
  let ds := match s.data with
    | '+' :: rest => rest
    | l => l
  if ds = [] then none
  else if ds.all Char.isDigit then
    let n := ds.foldl (fun acc c => acc * 10 + (c.toNat - 48)) 0
    if n < 2 ^ 64 then some n else none
  else none

/-- The `__min` extraction (main.rs lines 103-107): find the first `__min`
pair and parse its value as a `usize`; a parse failure is a hard error. -/
def minSpecOf (queries : List (String × String)) : Except String (Option Nat) :=
  match queries.find? (fun p => p.1 == "__min") with
  | none => Except.ok none
  | some p =>
    match parseUsize p.2 with
    | none => Except.error "invalid min spec"
    | some n => Except.ok (some n)

/-- The base request query parameters (main.rs lines 122-132): `__limit=30`
is appended when no `__limit` pair exists, `__sort=_id::1` is appended when
the derived sort spec is absent, and then every user pair is appended. -/
def buildParams (queries : List (String × String))
    (sortSpec : Option (List String × String)) : List (String × String) :=
  (if (queries.find? (fun p => p.1 == "__limit")).isNone
   then [("__limit", "30")] else []) ++
  (if sortSpec.isNone then [("__sort", "_id::1")] else []) ++
  queries

/-- `min_spec.map_or(false, |min| l >= min)` (main.rs lines 182, 231). -/
def minSat (minSpec : Option Nat) (l : Nat) : Bool :=
  match minSpec with
  | none => false
  | some m => decide (m ≤ l)

/-- The selector walk of the continuation derivation (main.rs lines 196-202):
starting from the last record, repeatedly look the next selector up in the
current entry while both an entry and a selector remain, remembering the
last selector consumed. -/
def walkAux : Option Json → Option String → List String → Option Json × Option String
  | entry, lastUsed, [] => (entry, lastUsed)
  | none, lastUsed, _ :: _ => (none, lastUsed)
  | some parent, _, sel :: rest => walkAux (parent.get sel) (some sel) rest

/-- One continuation-parameter attempt (main.rs lines 196-212): walk the
field path in the record; if a leaf was reached and it renders as a string
(string verbatim, number as decimal), produce `(<last selector>_next, value)`. -/
def deriveParam (last : Json) (selectors : List String) : Option (String × String) :=
  match walkAux (some last) none selectors with
  | (some val, some sel) => (leafString val).map (fun s => (sel ++ "_next", s))
  | _ => none

/-- `new_paged_discriminant` (main.rs lines 191-215): if the page has a last
record, collect the resolved parameters of the fixed `["_id"]` path followed
by those of the sort-spec path when a sort spec is configured; an empty page
yields `none`. -/
def newPagedDiscriminant (lastEntry : Option Json)
    (sortSpec : Option (List String × String)) : Option (List (String × String)) :=
  lastEntry.map (fun last =>
    (deriveParam last ["_id"]).toList ++
      (match sortSpec with
       | none => []
       | some (path, _) => (deriveParam last path).toList))

/-- The dedup filter predicate (main.rs lines 218-226): a record without a
string `_id` is always accepted; one with a string `_id` is accepted exactly
when that id is not in the seen-identity set. -/
def dedupAccept (indexedIds : List String) (e : Json) : Bool :=
  match (e.get "_id").bind Json.asStr with
  | none => true
  | some id => decide (id ∉ indexedIds)

/-- The `ids` vector collected by the dedup filter (main.rs line 223): every
string `_id` occurring in the page, in page order, duplicates included. -/
def pageIds (results : List Json) : List String :=
  results.filterMap (fun e => (e.get "_id").bind Json.asStr)

/-- `indexed_ids.extend(ids)` on the seen-identity set (main.rs line 228):
insert each id, skipping ones already present. -/
def extendIds (s : List String) (ids : List String) : List String :=
  ids.foldl (fun acc id => if id ∈ acc then acc else acc ++ [id]) s

/-- The loop state: the page counter and discriminant of `paged_offset`
(main.rs line 134), the seen-identity set `indexed_ids` (line 76) and the
aggregate `result` (line 77). The discriminant is `none` before the first
response, `some none` when pagination must stop, and `some (some ps)` when
the next request is extended with the parameters `ps`. -/
structure LoopState where
  nPage : Nat
  indexedIds : List String
  result : Json
  discriminant : Option (Option (List (String × String)))

/-- The state at entry of the loop: page 0, no seen ids, aggregate `[]`,
discriminant not yet computed. -/
def initState : LoopState := ⟨0, [], Json.arr [], none⟩

/-- The `ParasResponse::Value` arm (main.rs lines 170-174): the aggregate
becomes the value and the discriminant becomes `some none` (stop). -/
def stepValue (st : LoopState) (v : Json) : LoopState :=
  ⟨st.nPage + 1, st.indexedIds, v, some none⟩

/-- The `ParasResponse::Window` arm (main.rs lines 175-184): the aggregate
must be an array (otherwise the `"unexpected"` error); the results are all
appended; then stop on zero growth, stop when the `__min` bound is met by the
new length, and otherwise continue with a single `__skip` parameter equal to
the new length. -/
def stepWindow (minSpec : Option Nat) (st : LoopState) (results : List Json) :
    Except String LoopState :=
  match st.result with
  | Json.arr coll =>
    Except.ok ⟨st.nPage + 1, st.indexedIds, Json.arr (coll ++ results),
      some (if (coll ++ results).length = coll.length then none
            else if minSat minSpec (coll ++ results).length then none
            else some [("__skip", natToDecimal (coll ++ results).length)])⟩
  | _ => Except.error "unexpected"

/-- The discriminant computed by the `ParasResponse::Paged` arm
(main.rs lines 229-233): stop when the seen-identity set did not grow, stop
when the `__min` bound is met by the seen-identity set's size, and otherwise
use `new_paged_discriminant`. -/
def pagedDisc (minSpec : Option Nat) (sortSpec : Option (List String × String))
    (oldIds : List String) (results : List Json) : Option (List (String × String)) :=
  if (extendIds oldIds (pageIds results)).length = oldIds.length then none
  else if minSat minSpec (extendIds oldIds (pageIds results)).length then none
  else newPagedDiscriminant results.getLast? sortSpec

/-- The `ParasResponse::Paged` arm (main.rs lines 186-241): the aggregate
must be an array (otherwise the `"unexpected"` error); the records that pass
the dedup filter are appended, the seen-identity set is extended with every
string `_id` of the page, and the discriminant is `pagedDisc`. -/
def stepPaged (minSpec : Option Nat) (sortSpec : Option (List String × String))
    (st : LoopState) (results : List Json) : Except String LoopState :=
  match st.result with
  | Json.arr coll =>
    Except.ok ⟨st.nPage + 1, extendIds st.indexedIds (pageIds results),
      Json.arr (coll ++ results.filter (dedupAccept st.indexedIds)),
      some (pagedDisc minSpec sortSpec st.indexedIds results)⟩
  | _ => Except.error "unexpected"

/-- Processing of one response by the loop body (main.rs lines 169-242),
including the `n_page += 1` of line 168. -/
def step (minSpec : Option Nat) (sortSpec : Option (List String × String))
    (st : LoopState) (resp : ParasResponse) : Except String LoopState :=
  match resp with
  | ParasResponse.value v => Except.ok (stepValue st v)
  | ParasResponse.window results => stepWindow minSpec st results
  | ParasResponse.paged results => stepPaged minSpec sortSpec st results

/-- The extra query parameters a request carries (main.rs lines 153-162):
the pending discriminant's parameters, or nothing. -/
def extraOf : Option (Option (List (String × String))) → List (String × String)
  | some (some p) => p
  | _ => []

/-- The pagination loop (main.rs lines 138-243) driven by a script of
responses: when the discriminant is `some none` the loop breaks; otherwise a
request is issued (appended to the log as base-plus-extra parameters) and
the next response is processed; running out of scripted responses models a
transport failure of the issued request. -/
def runAux (minSpec : Option Nat) (sortSpec : Option (List String × String))
    (base : List (String × String)) :
    List ParasResponse → LoopState → List (List (String × String)) →
    List (List (String × String)) × Except String LoopState
  | [], st, log =>
    if st.discriminant = some none then (log, Except.ok st)
    else (log ++ [base ++ extraOf st.discriminant], Except.error "transport")
  | r :: rest, st, log =>
    if st.discriminant = some none then (log, Except.ok st)
    else
      match step minSpec sortSpec st r with
      | Except.error e => (log ++ [base ++ extraOf st.discriminant], Except.error e)
      | Except.ok st' =>
        runAux minSpec sortSpec base rest st' (log ++ [base ++ extraOf st.discriminant])

/-- The whole run (main.rs `main`): parse the query tokens, extract the sort
and min specs, build the base parameters, and drive the loop from the
initial state; the second component counts the requests issued. -/
def mainModel (queryTokens : List String) (resps : List ParasResponse) :
    Except String Json × Nat :=
  match parseQueries queryTokens with
  | none => (Except.error "invalid query arg", 0)
  | some queries =>
    match sortSpecOf queries with
    | Except.error e => (Except.error e, 0)
    | Except.ok sortSpec =>
      match minSpecOf queries with
      | Except.error e => (Except.error e, 0)
      | Except.ok minSpec =>
        match runAux minSpec sortSpec (buildParams queries sortSpec) resps initState [] with
        | (log, Except.ok st) => (Except.ok st.result, log.length)
        | (log, Except.error e) => (Except.error e, log.length)

/-- The aggregate's length when it is an array (`result.as_array().len()`). -/
def arrLen : Json → Nat
  | Json.arr l => l.length
  | _ => 0

/-- The result of a successful paged step, `none` on the `"unexpected"` error. -/
def stepPagedResult (minSpec : Option Nat) (sortSpec : Option (List String × String))
    (st : LoopState) (results : List Json) : Option Json :=
  match stepPaged minSpec sortSpec st results with
  | Except.ok st' => some st'.result
  | Except.error _ => none

/-- Concrete page used for claim C2: the first record has a fresh string
`_id`, the last record's `_id` is a boolean, so no continuation parameter
resolves from the last record. -/
def c2Page : List Json :=
  [Json.obj [("_id", Json.str "a")], Json.obj [("_id", Json.bool true)]]

/-- Concrete page used for claim C3: two records are accepted but only one
carries a string `_id`, so the seen-identity count lags the accepted count. -/
def c3Page : List Json :=
  [Json.obj [("x", Json.num "1")], Json.obj [("_id", Json.str "a")]]

/-- Concrete last record used for claim C4's counterexample: the sort path
`price` resolves but there is no `_id` field. -/
def c4Last : Json := Json.obj [("price", Json.num "12.5")]

/-- The last record of claim C4's scenario: `{"price": 12.5, "_id": "x1"}`. -/
def c4ScenarioLast : Json :=
  Json.obj [("price", Json.num "12.5"), ("_id", Json.str "x1")]

/-- Concrete single-record page used for claim C6. -/
def c6Page : List Json := [Json.obj [("_id", Json.str "a")]]

/-- Concrete page used for claim C9: two records carrying the same fresh
string `_id`. -/
def c9Page : List Json :=
  [Json.obj [("_id", Json.str "a"), ("v", Json.num "1")],
   Json.obj [("_id", Json.str "a"), ("v", Json.num "2")]]

/-- Concrete state used for claim C5's witness: the state after one window
response of one record from the initial state. -/
def c5State : LoopState :=
  ⟨1, [], Json.arr [Json.num "1"], some (some [("__skip", "1")])⟩

/-- Membership in the seen-identity set is preserved by extending it. -/
theorem mem_extendIds_left : ∀ (ids s : List String) (a : String),
    a ∈ s → a ∈ extendIds s ids := by
  intro ids
  induction ids with
  | nil => intro s a h; exact h
  | cons x ids ih =>
    intro s a h
    show a ∈ extendIds (if x ∈ s then s else s ++ [x]) ids
    refine ih _ a ?_
    split
    · exact h
    · exact List.mem_append_left _ h

/-- Every extended-in id is a member of the extended seen-identity set. -/
theorem mem_extendIds_right : ∀ (ids s : List String) (a : String),
    a ∈ ids → a ∈ extendIds s ids := by
  intro ids
  induction ids with
  | nil => intro s a h; exact absurd h (List.not_mem_nil a)
  | cons x ids ih =>
    intro s a h
    show a ∈ extendIds (if x ∈ s then s else s ++ [x]) ids
    rcases List.mem_cons.mp h with rfl | h'
    · refine mem_extendIds_left ids _ a ?_
      split
      · assumption
      · exact List.mem_append_right _ (List.mem_singleton.mpr rfl)
    · exact ih _ a h'

/-- Extending the seen-identity set with ids it already contains leaves it
unchanged. -/
theorem extendIds_eq_self : ∀ (ids s : List String),
    (∀ a ∈ ids, a ∈ s) → extendIds s ids = s := by
  intro ids
  induction ids with
  | nil => intro s _; rfl
  | cons x ids ih =>
    intro s h
    show extendIds (if x ∈ s then s else s ++ [x]) ids = s
    rw [if_pos (h x (List.mem_cons_self x ids))]
    exact ih s (fun a ha => h a (List.mem_cons_of_mem x ha))

/-- When the selector walk ends on a resolved entry, the last consumed
selector is the last segment of the (non-empty) path. -/
theorem walkAux_getLast : ∀ (path : List String) (entry : Option Json)
    (lu : Option String) (v : Json) (sel : String),
    walkAux entry lu path = (some v, some sel) → path ≠ [] →
    path.getLast? = some sel := by
  intro path
  induction path with
  | nil => intro entry lu v sel _ hne; exact absurd rfl hne
  | cons p rest ih =>
    intro entry lu v sel h _
    cases entry with
    | none => simp [walkAux] at h
    | some parent =>
      cases rest with
      | nil =>
        simp [walkAux] at h
        rw [List.getLast?_singleton, h.2]
      | cons q rest' =>
        rw [List.getLast?_cons_cons]
        exact ih (parent.get p) (some p) v sel (by simpa [walkAux] using h) (by simp)

/-- `split_once` yields nothing when the separator character is absent. -/
theorem splitOnceChar_eq_none {c : Char} : ∀ (l : List Char),
    c ∉ l → splitOnceChar c l = none := by
  intro l
  induction l with
  | nil => intro _; rfl
  | cons x xs ih =>
    intro h
    have hxc : ¬ x = c := by rintro rfl; exact h (List.mem_cons_self x xs)
    have hxs : c ∉ xs := fun hm => h (List.mem_cons_of_mem x hm)
    simp [splitOnceChar, hxc, ih hxs]

/-- The whole query parse fails as soon as one token does not split on `=`. -/
theorem parseQueries_eq_none : ∀ (tokens : List String) (t : String),
    t ∈ tokens → splitOnceEq t = none → parseQueries tokens = none := by
  intro tokens
  induction tokens with
  | nil => intro t h; exact absurd h (List.not_mem_nil t)
  | cons x xs ih =>
    intro t ht hnone
    rcases List.mem_cons.mp ht with rfl | h'
    · simp [parseQueries, hnone]
    · cases hsx : splitOnceEq x <;> simp [parseQueries, hsx, ih t h' hnone]

/-- Inversion of a successful paged step: the aggregate was an array and the
new state is determined by the page. -/
theorem stepPaged_eq_ok {minSpec : Option Nat} {sortSpec : Option (List String × String)}
    {st : LoopState} {results : List Json} {st' : LoopState}
    (h : stepPaged minSpec sortSpec st results = Except.ok st') :
    ∃ coll, st.result = Json.arr coll ∧
      st' = ⟨st.nPage + 1, extendIds st.indexedIds (pageIds results),
             Json.arr (coll ++ results.filter (dedupAccept st.indexedIds)),
             some (pagedDisc minSpec sortSpec st.indexedIds results)⟩ := by
  cases hres : st.result
  case arr coll =>
    have hstep : stepPaged minSpec sortSpec st results =
        Except.ok ⟨st.nPage + 1, extendIds st.indexedIds (pageIds results),
          Json.arr (coll ++ results.filter (dedupAccept st.indexedIds)),
          some (pagedDisc minSpec sortSpec st.indexedIds results)⟩ := by
      unfold stepPaged; rw [hres]
    rw [hstep] at h
    exact ⟨coll, rfl, (Except.ok.inj h).symm⟩
  all_goals
    exfalso
    have herr : stepPaged minSpec sortSpec st results = Except.error "unexpected" := by
      unfold stepPaged; rw [hres]
    rw [herr] at h
    exact Except.noConfusion h

/-- Inversion of a successful window step. -/
theorem stepWindow_eq_ok {minSpec : Option Nat} {st : LoopState}
    {results : List Json} {st' : LoopState}
    (h : stepWindow minSpec st results = Except.ok st') :
    ∃ coll, st.result = Json.arr coll ∧
      st' = ⟨st.nPage + 1, st.indexedIds, Json.arr (coll ++ results),
             some (if (coll ++ results).length = coll.length then none
                   else if minSat minSpec (coll ++ results).length then none
                   else some [("__skip", natToDecimal (coll ++ results).length)])⟩ := by
  cases hres : st.result
  case arr coll =>
    have hstep : stepWindow minSpec st results =
        Except.ok ⟨st.nPage + 1, st.indexedIds, Json.arr (coll ++ results),
          some (if (coll ++ results).length = coll.length then none
                else if minSat minSpec (coll ++ results).length then none
                else some [("__skip", natToDecimal (coll ++ results).length)])⟩ := by
      unfold stepWindow; rw [hres]
    rw [hstep] at h
    exact ⟨coll, rfl, (Except.ok.inj h).symm⟩
  all_goals
    exfalso
    have herr : stepWindow minSpec st results = Except.error "unexpected" := by
      unfold stepWindow; rw [hres]
    rw [herr] at h
    exact Except.noConfusion h

/-- C1, counterexample: a `SingleValue` response arriving after array-mode
accumulation has begun (one `Window` response was already processed, the
aggregate is an array holding one record) does not make the run fail: the
run completes with `Except.ok`, the aggregate becomes the bare value, and a
result is produced — contradicting the claim that such a run fails with an
internal/"unexpected" error and emits no result. -/
theorem C1_counterexample :
    runAux none none []
        [ParasResponse.window [Json.obj [("a", Json.num "1")]],
         ParasResponse.value (Json.str "v")] initState [] =
      ([[], [("__skip", "1")]], Except.ok ⟨2, [], Json.str "v", some none⟩) := rfl

/-- C1 (amended): a `SingleValue` response is never an error — in every
state it replaces the aggregate with the bare value and sets the
discriminant to stop; the fatal internal/"unexpected" error (distinct from
the transport error) arises in the converse situation, when a `Window` or
`CursorPage` response arrives while the aggregate is not an array. -/
theorem C1_amended :
    (∀ (minSpec : Option Nat) (sortSpec : Option (List String × String))
       (st : LoopState) (v : Json),
        step minSpec sortSpec st (ParasResponse.value v) =
          Except.ok ⟨st.nPage + 1, st.indexedIds, v, some none⟩) ∧
    (∀ (minSpec : Option Nat) (sortSpec : Option (List String × String))
       (st : LoopState) (wres pres : List Json),
        (∀ l, st.result ≠ Json.arr l) →
        step minSpec sortSpec st (ParasResponse.window wres) =
          Except.error "unexpected" ∧
        step minSpec sortSpec st (ParasResponse.paged pres) =
          Except.error "unexpected") := by
  constructor
  · intro minSpec sortSpec st v; rfl
  · intro minSpec sortSpec st wres pres hne
    constructor
    · show stepWindow minSpec st wres = Except.error "unexpected"
      cases hres : st.result
      case arr l => exact absurd hres (hne l)
      all_goals (unfold stepWindow; rw [hres])
    · show stepPaged minSpec sortSpec st pres = Except.error "unexpected"
      cases hres : st.result
      case arr l => exact absurd hres (hne l)
      all_goals (unfold stepPaged; rw [hres])

/-- C1 witness: the amended claim at a concrete input — a `SingleValue`
response from the initial state succeeds and stops, and a `Window` response
in a state whose aggregate is a bare string fails with `"unexpected"`. -/
theorem C1_amended_witness :
    step none none initState (ParasResponse.value (Json.str "v")) =
      Except.ok ⟨1, [], Json.str "v", some none⟩ ∧
    step none none ⟨1, [], Json.str "v", some none⟩ (ParasResponse.window []) =
      Except.error "unexpected" :=
  ⟨C1_amended.1 none none initState (Json.str "v"),
   (C1_amended.2 none none ⟨1, [], Json.str "v", some none⟩ [] []
      (fun _ h => Json.noConfusion h)).1⟩

/-- C2, counterexample: `c2Page` is a non-empty cursor page whose last
record yields zero resolved continuation parameters (its `_id` is a boolean
and no sort spec is set), so the derived continuation token is the empty
list — yet pagination does not stop: the seen-identity set grew (the first
record's fresh `"a"`), the discriminant becomes `some (some [])`, and a
second request is issued after that page (request log has two entries). -/
theorem C2_counterexample :
    newPagedDiscriminant c2Page.getLast? none = some [] ∧
    (runAux none none [] [ParasResponse.paged c2Page, ParasResponse.paged []]
        initState []).1.length = 2 := ⟨rfl, rfl⟩

/-- C2 (amended): for a cursor page whose last record yields zero resolved
continuation parameters, the continuation token is indeed empty, but
pagination stops only when the seen-identity set did not grow or the
`MinSpec` bound is met; otherwise the loop continues with an empty
parameter extension (`some (some [])`), issuing a further request. -/
theorem C2_amended : ∀ (minSpec : Option Nat)
    (sortSpec : Option (List String × String)) (st : LoopState)
    (results : List Json) (st' : LoopState),
    stepPaged minSpec sortSpec st results = Except.ok st' →
    newPagedDiscriminant results.getLast? sortSpec = some [] →
    st'.discriminant =
      some (if (extendIds st.indexedIds (pageIds results)).length =
              st.indexedIds.length then none
            else if minSat minSpec (extendIds st.indexedIds (pageIds results)).length
            then none
            else some []) := by
  intro minSpec sortSpec st results st' h hnpd
  obtain ⟨coll, hres, rfl⟩ := stepPaged_eq_ok h
  show some (pagedDisc minSpec sortSpec st.indexedIds results) = _
  unfold pagedDisc
  rw [hnpd]

/-- C2 witness: the amended claim at the concrete page `c2Page` from the
initial state — the loop continues with the empty extension. -/
theorem C2_amended_witness :
    (⟨1, ["a"], Json.arr c2Page, some (some [])⟩ : LoopState).discriminant =
      some (if (extendIds [] (pageIds c2Page)).length = ([] : List String).length
            then none
            else if minSat none (extendIds [] (pageIds c2Page)).length then none
            else some []) :=
  C2_amended none none initState c2Page
    ⟨1, ["a"], Json.arr c2Page, some (some [])⟩ rfl rfl

/-- C3, counterexample: with `__min=2`, the page `c3Page` has two records,
both accepted (the aggregate reaches 2 ≥ 2), but only one carries a string
`_id`, so the seen-identity set has size 1 < 2 and the loop continues with
a valid continuation — a second request is issued after the accepted count
first reached the bound. -/
theorem C3_counterexample :
    c3Page.length = 2 ∧
    stepPaged (some 2) none initState c3Page =
      Except.ok ⟨1, ["a"], Json.arr c3Page, some (some [("_id_next", "a")])⟩ ∧
    (runAux (some 2) none [] [ParasResponse.paged c3Page, ParasResponse.paged []]
        initState []).1.length = 2 := ⟨rfl, rfl, rfl⟩

/-- C3 (amended): given `__min=N`, the quantity compared against `N` is the
aggregate's length for `Window` responses but the seen-identity set's size
for `CursorPage` responses; once the relevant count reaches `N` the
discriminant becomes stop, and a stopped loop issues no further request. -/
theorem C3_amended :
    (∀ (n : Nat) (st : LoopState) (results : List Json) (st' : LoopState),
        stepWindow (some n) st results = Except.ok st' →
        n ≤ arrLen st'.result → st'.discriminant = some none) ∧
    (∀ (n : Nat) (sortSpec : Option (List String × String)) (st : LoopState)
       (results : List Json) (st' : LoopState),
        stepPaged (some n) sortSpec st results = Except.ok st' →
        n ≤ st'.indexedIds.length → st'.discriminant = some none) ∧
    (∀ (minSpec : Option Nat) (sortSpec : Option (List String × String))
       (base : List (String × String)) (resps : List ParasResponse)
       (st : LoopState) (log : List (List (String × String))),
        st.discriminant = some none →
        runAux minSpec sortSpec base resps st log = (log, Except.ok st)) := by
  refine ⟨?_, ?_, ?_⟩
  · intro n st results st' h hmin
    obtain ⟨coll, hres, rfl⟩ := stepWindow_eq_ok h
    show some (if (coll ++ results).length = coll.length then none
          else if minSat (some n) (coll ++ results).length then none
          else some [("__skip", natToDecimal (coll ++ results).length)]) = some none
    have hsat : minSat (some n) (coll ++ results).length = true := by
      simp only [minSat, decide_eq_true_eq]
      exact hmin
    by_cases hlen : (coll ++ results).length = coll.length
    · rw [if_pos hlen]
    · rw [if_neg hlen, if_pos hsat]
  · intro n sortSpec st results st' h hmin
    obtain ⟨coll, hres, rfl⟩ := stepPaged_eq_ok h
    show some (pagedDisc (some n) sortSpec st.indexedIds results) = some none
    unfold pagedDisc
    have hsat : minSat (some n) (extendIds st.indexedIds (pageIds results)).length
        = true := by
      simp only [minSat, decide_eq_true_eq]
      exact hmin
    by_cases hlen : (extendIds st.indexedIds (pageIds results)).length =
        st.indexedIds.length
    · rw [if_pos hlen]
    · rw [if_neg hlen, if_pos hsat]
  · intro minSpec sortSpec base resps st log h
    cases resps <;> simp [runAux, h]

/-- C3 witness: the amended claim at concrete inputs — a window page meeting
`__min=1` stops, a cursor page whose seen-identity count meets `__min=1`
stops, and a stopped loop makes no request. -/
theorem C3_amended_witness :
    (⟨1, [], Json.arr [Json.num "1"], some none⟩ : LoopState).discriminant =
      some none ∧
    (⟨1, ["a"], Json.arr [Json.obj [("_id", Json.str "a")]],
        some none⟩ : LoopState).discriminant = some none ∧
    runAux none none [] [] (⟨1, [], Json.arr [], some none⟩ : LoopState) [] =
      ([], Except.ok ⟨1, [], Json.arr [], some none⟩) :=
  ⟨C3_amended.1 1 initState [Json.num "1"]
      ⟨1, [], Json.arr [Json.num "1"], some none⟩ rfl (by decide),
   C3_amended.2.1 1 none initState [Json.obj [("_id", Json.str "a")]]
      ⟨1, ["a"], Json.arr [Json.obj [("_id", Json.str "a")]], some none⟩ rfl
      (by decide),
   C3_amended.2.2 none none [] [] ⟨1, [], Json.arr [], some none⟩ [] rfl⟩

/-- C4, counterexample: on the last record `{"price": 12.5}` the configured
sort path `price` resolves, yet the continuation deriver emits exactly one
parameter (`price_next`), not two — the fixed `_id` path does not resolve
on this record, refuting "emits exactly two parameters". -/
theorem C4_counterexample :
    newPagedDiscriminant (some c4Last) (some (["price"], "-1")) =
      some [("price_next", "12.5")] ∧
    (newPagedDiscriminant (some c4Last) (some (["price"], "-1"))).map
        List.length = some 1 := ⟨rfl, rfl⟩

/-- C4 (amended): provided the fixed `_id` path also resolves to a string or
number on the last record, a resolving sort path gives exactly the two
parameters `_id_next` then `<field>_next` (field = last path segment), and a
non-resolving sort path gives exactly the one parameter `_id_next`. -/
theorem C4_amended : ∀ (last : Json) (path : List String) (dir : String)
    (idp sp : String × String),
    deriveParam last ["_id"] = some idp →
    ((deriveParam last path = some sp →
        newPagedDiscriminant (some last) (some (path, dir)) = some [idp, sp] ∧
        some sp.1 = path.getLast?.map (fun seg => seg ++ "_next")) ∧
     (deriveParam last path = none →
        newPagedDiscriminant (some last) (some (path, dir)) = some [idp])) := by
  intro last path dir idp sp hid
  constructor
  · intro hsp
    constructor
    · simp [newPagedDiscriminant, hid, hsp]
    · unfold deriveParam at hsp
      rcases hw0 : walkAux (some last) none path with ⟨entry, lu⟩
      rw [hw0] at hsp
      cases entry with
      | none => simp at hsp
      | some val =>
        cases lu with
        | none => simp at hsp
        | some sel =>
          have hne : path ≠ [] := by
            intro hnil
            subst hnil
            simp [walkAux] at hw0
          have hlast := walkAux_getLast path (some last) none val sel hw0 hne
          rcases Option.map_eq_some'.mp hsp with ⟨s, _, hpair⟩
          rw [hlast, ← hpair]
          rfl
  · intro hnone
    simp [newPagedDiscriminant, hid, hnone]

/-- C4 witness: the amended claim at the spec's scenario — with
`__sort=price::-1` and last record `{"price": 12.5, "_id": "x1"}` the token
is exactly `[("_id_next","x1"), ("price_next","12.5")]`; and with the same
sort on a record without a `price` field, exactly `[("_id_next","x1")]`. -/
theorem C4_amended_witness :
    (newPagedDiscriminant (some c4ScenarioLast) (some (["price"], "-1")) =
        some [("_id_next", "x1"), ("price_next", "12.5")] ∧
      some ("price_next", "12.5").1 =
        (["price"] : List String).getLast?.map (fun seg => seg ++ "_next")) ∧
    newPagedDiscriminant (some (Json.obj [("_id", Json.str "x1")]))
        (some (["price"], "-1")) = some [("_id_next", "x1")] :=
  ⟨(C4_amended c4ScenarioLast ["price"] "-1" ("_id_next", "x1")
      ("price_next", "12.5") rfl).1 rfl,
   (C4_amended (Json.obj [("_id", Json.str "x1")]) ["price"] "-1"
      ("_id_next", "x1") ("price_next", "12.5") rfl).2 rfl⟩

/-- C5: for every `Window` response, zero growth (an empty result list)
stops pagination regardless of the `MinSpec`; with growth, a satisfied
`MinSpec` stops; and otherwise the continuation is the single `__skip`
parameter whose value is the new accumulated record count. -/
theorem C5_confirmed : ∀ (minSpec : Option Nat) (st : LoopState)
    (results coll : List Json) (st' : LoopState),
    st.result = Json.arr coll →
    stepWindow minSpec st results = Except.ok st' →
    ((results = [] → st'.discriminant = some none) ∧
     (results ≠ [] → minSat minSpec (coll.length + results.length) = true →
        st'.discriminant = some none) ∧
     (results ≠ [] → minSat minSpec (coll.length + results.length) = false →
        st'.discriminant =
          some (some [("__skip", natToDecimal (arrLen st'.result))]) ∧
        arrLen st'.result = coll.length + results.length)) := by
  intro minSpec st results coll st' hres h
  obtain ⟨coll2, hres2, rfl⟩ := stepWindow_eq_ok h
  rw [hres] at hres2
  obtain rfl : coll = coll2 := Json.arr.inj hres2
  have hlen : (coll ++ results).length = coll.length + results.length :=
    List.length_append coll results
  refine ⟨?_, ?_, ?_⟩
  · rintro rfl
    show some (if (coll ++ []).length = coll.length then none else _) = some none
    simp
  · intro hne hsat
    have hsat' : minSat minSpec (coll ++ results).length = true := by
      rw [hlen]; exact hsat
    show some (if (coll ++ results).length = coll.length then none
          else if minSat minSpec (coll ++ results).length then none else _) =
        some none
    by_cases h0 : (coll ++ results).length = coll.length
    · rw [if_pos h0]
    · rw [if_neg h0, if_pos hsat']
  · intro hne hsat
    have h0 : ¬ (coll ++ results).length = coll.length := by
      rw [hlen]
      intro heq
      have : results.length = 0 := by omega
      exact hne (List.length_eq_zero.mp this)
    have hsat' : minSat minSpec (coll ++ results).length = false := by
      rw [hlen]; exact hsat
    constructor
    · show some (if (coll ++ results).length = coll.length then none
            else if minSat minSpec (coll ++ results).length then none
            else some [("__skip", natToDecimal (coll ++ results).length)]) = _
      rw [if_neg h0, hsat']
      show some (some [("__skip", natToDecimal (coll ++ results).length)]) = _
      rfl
    · show (coll ++ results).length = coll.length + results.length
      exact hlen

/-- C5 witness: the claim at a concrete input — one window record arriving
on an empty aggregate with no `MinSpec` continues with `__skip=1`. -/
theorem C5_confirmed_witness :
    c5State.discriminant =
      some (some [("__skip", natToDecimal (arrLen c5State.result))]) ∧
    arrLen c5State.result =
      List.length ([] : List Json) + List.length [Json.num "1"] :=
  (C5_confirmed none initState [Json.num "1"] [] c5State rfl rfl).2.2
    (List.cons_ne_nil _ _) rfl

/-- C6: feeding the same cursor page twice (every record carrying a string
`_id`) accepts zero new records on the second feed (the aggregate is
unchanged), leaves the seen-identity set's size unchanged, and forces the
discriminant to stop through the no-growth rule. -/
theorem C6_confirmed : ∀ (minSpec : Option Nat)
    (sortSpec : Option (List String × String)) (st st1 st2 : LoopState)
    (page : List Json),
    (∀ e ∈ page, ((e.get "_id").bind Json.asStr).isSome = true) →
    stepPaged minSpec sortSpec st page = Except.ok st1 →
    stepPaged minSpec sortSpec st1 page = Except.ok st2 →
    st2.result = st1.result ∧
    st2.indexedIds.length = st1.indexedIds.length ∧
    st2.discriminant = some none := by
  intro minSpec sortSpec st st1 st2 page hall h1 h2
  obtain ⟨coll, hres, rfl⟩ := stepPaged_eq_ok h1
  obtain ⟨coll1, hres1, rfl⟩ := stepPaged_eq_ok h2
  have hcoll1 : coll1 = coll ++ page.filter (dedupAccept st.indexedIds) :=
    (Json.arr.inj hres1).symm
  have hmem : ∀ a ∈ pageIds page, a ∈ extendIds st.indexedIds (pageIds page) :=
    fun a ha => mem_extendIds_right _ _ a ha
  have hfilter : page.filter
      (dedupAccept (extendIds st.indexedIds (pageIds page))) = [] := by
    rw [List.filter_eq_nil_iff]
    intro e he
    obtain ⟨id, hid⟩ := Option.isSome_iff_exists.mp (hall e he)
    simp only [dedupAccept, hid, Option.bind_some, decide_eq_true_eq]
    intro hcon
    exact hcon (hmem id (List.mem_filterMap.mpr ⟨e, he, hid⟩))
  have hext : extendIds (extendIds st.indexedIds (pageIds page)) (pageIds page) =
      extendIds st.indexedIds (pageIds page) :=
    extendIds_eq_self _ _ hmem
  refine ⟨?_, ?_, ?_⟩
  · show Json.arr (coll1 ++ page.filter
        (dedupAccept (extendIds st.indexedIds (pageIds page)))) =
      Json.arr (coll ++ page.filter (dedupAccept st.indexedIds))
    rw [hfilter, List.append_nil, hcoll1]
  · show (extendIds (extendIds st.indexedIds (pageIds page))
        (pageIds page)).length = (extendIds st.indexedIds (pageIds page)).length
    rw [hext]
  · show some (pagedDisc minSpec sortSpec
        (extendIds st.indexedIds (pageIds page)) page) = some none
    unfold pagedDisc
    rw [hext, if_pos rfl]

/-- C6 witness: the claim at the concrete single-record page `c6Page` fed
twice from the initial state. -/
theorem C6_confirmed_witness :
    (⟨2, ["a"], Json.arr c6Page, some none⟩ : LoopState).result =
      (⟨1, ["a"], Json.arr c6Page,
          some (some [("_id_next", "a")])⟩ : LoopState).result ∧
    (⟨2, ["a"], Json.arr c6Page, some none⟩ : LoopState).indexedIds.length =
      (⟨1, ["a"], Json.arr c6Page,
          some (some [("_id_next", "a")])⟩ : LoopState).indexedIds.length ∧
    (⟨2, ["a"], Json.arr c6Page, some none⟩ : LoopState).discriminant =
      some none :=
  C6_confirmed none none initState
    ⟨1, ["a"], Json.arr c6Page, some (some [("_id_next", "a")])⟩
    ⟨2, ["a"], Json.arr c6Page, some none⟩ c6Page
    (by intro e he; simp only [c6Page, List.mem_singleton] at he; subst he; rfl)
    rfl rfl

/-- C7, counterexample: the token `"a=b=c"` contains two `=`, violating the
claimed "exactly one `=`" rule, yet the parse succeeds (splitting at the
first `=`) and the run proceeds to issue a request (one request logged,
failing only on the modeled transport). -/
theorem C7_counterexample :
    parseQueries ["a=b=c"] = some [("a", "b=c")] ∧
    mainModel ["a=b=c"] [] = (Except.error "transport", 1) := ⟨rfl, rfl⟩

/-- C7 (amended): each raw query token must contain at least one `=` (it is
split at the first one); any token without `=` causes the whole parse to
fail with the "invalid query arg" error before any request is issued (zero
requests). -/
theorem C7_amended : ∀ (tokens : List String) (resps : List ParasResponse),
    (∃ t ∈ tokens, '=' ∉ t.data) →
    mainModel tokens resps = (Except.error "invalid query arg", 0) := by
  rintro tokens resps ⟨t, ht, hmem⟩
  have hsplit : splitOnceEq t = none := by
    unfold splitOnceEq
    rw [splitOnceChar_eq_none t.data hmem]
    rfl
  have hparse : parseQueries tokens = none := parseQueries_eq_none tokens t ht hsplit
  unfold mainModel
  rw [hparse]

/-- C7 witness: the spec's scenario — the invalid argument `"badtoken"`
makes the run fail before any request; zero requests issued. -/
theorem C7_amended_witness :
    mainModel ["badtoken"] [] = (Except.error "invalid query arg", 0) :=
  C7_amended ["badtoken"] [] ⟨"badtoken", List.mem_singleton.mpr rfl, by decide⟩

/-- C8, counterexample: the query pair `__sort=price` (no `::`) is present,
so per the claim no default sort should be injected — but the derived sort
spec is `none` and `__sort=_id::1` is injected anyway, alongside the
forwarded user pair. -/
theorem C8_counterexample :
    sortSpecOf [("__sort", "price")] = Except.ok none ∧
    buildParams [("__sort", "price")] none =
      [("__limit", "30"), ("__sort", "_id::1"), ("__sort", "price")] ∧
    ("__sort", "price") ∈ [("__sort", "price")] :=
  ⟨rfl, rfl, List.mem_singleton.mpr rfl⟩

/-- C8 (amended): `__limit=30` is injected exactly when no `__limit` pair is
present; the default `__sort=_id::1` is injected exactly when the derived
sort spec is absent — that is, when there is no `__sort` pair or the first
`__sort` pair's value contains no `::`; the user pairs are forwarded
unmodified as a suffix of the request parameters. -/
theorem C8_amended : ∀ (queries : List (String × String))
    (ss : Option (List String × String)),
    sortSpecOf queries = Except.ok ss →
    (((queries.find? (fun p => p.1 == "__limit")) = none →
        buildParams queries ss =
          ("__limit", "30") ::
            ((if ss.isNone then [("__sort", "_id::1")] else []) ++ queries)) ∧
     ((∃ p ∈ queries, p.1 = "__limit") →
        buildParams queries ss =
          (if ss.isNone then [("__sort", "_id::1")] else []) ++ queries) ∧
     (ss = none ↔ ∀ p, queries.find? (fun q => q.1 == "__sort") = some p →
        splitOnceColons p.2 = none) ∧
     queries <:+ buildParams queries ss) := by
  intro queries ss hss
  refine ⟨?_, ?_, ?_, ?_⟩
  · intro hfind
    unfold buildParams
    rw [hfind]
    rfl
  · rintro ⟨p, hp, hkey⟩
    unfold buildParams
    have hfalse : (queries.find? (fun p => p.1 == "__limit")).isNone = false := by
      cases hfind : queries.find? (fun p => p.1 == "__limit") with
      | some q => rfl
      | none =>
        exfalso
        have := List.find?_eq_none.mp hfind p hp
        simp [hkey] at this
    rw [hfalse]
    rfl
  · unfold sortSpecOf at hss
    cases hfind : queries.find? (fun q => q.1 == "__sort") with
    | none =>
      rw [hfind] at hss
      obtain rfl : ss = none := (Except.ok.inj hss).symm
      constructor
      · intro _ p hp
        exact absurd hp (by simp)
      · intro _
        rfl
    | some p =>
      rw [hfind] at hss
      have hb : (some p).bind (fun q => splitOnceColons q.2) = splitOnceColons p.2 :=
        rfl
      rw [hb] at hss
      cases hsplit : splitOnceColons p.2 with
      | none =>
        rw [hsplit] at hss
        obtain rfl : ss = none := (Except.ok.inj hss).symm
        constructor
        · intro _ q hq
          obtain rfl : p = q := Option.some.inj hq
          exact hsplit
        · intro _
          rfl
      | some kv =>
        rw [hsplit] at hss
        obtain ⟨k, v⟩ := kv
        have hss2 : (if k = "" then
              (Except.error "invalid sort key spec" :
                Except String (Option (List String × String)))
            else Except.ok (some (splitDots k, v))) = Except.ok ss := hss
        by_cases hk : k = ""
        · rw [if_pos hk] at hss2
          exact absurd hss2 (by simp)
        · rw [if_neg hk] at hss2
          obtain rfl : ss = some (splitDots k, v) := (Except.ok.inj hss2).symm
          constructor
          · intro habs
            exact absurd habs (by simp)
          · intro hall
            exfalso
            have := hall p rfl
            rw [this] at hsplit
            exact Option.noConfusion hsplit
  · refine ⟨(if (queries.find? (fun p => p.1 == "__limit")).isNone
        then [("__limit", "30")] else []) ++
        (if ss.isNone then [("__sort", "_id::1")] else []), ?_⟩
    show _ ++ queries = buildParams queries ss
    unfold buildParams
    rw [List.append_assoc]

/-- C8 witness: the amended claim at a concrete query list with neither a
`__limit` nor a `__sort` pair — both defaults are injected ahead of the
forwarded user pair. -/
theorem C8_amended_witness :
    buildParams [("a", "b")] none =
      ("__limit", "30") ::
        ((if (none : Option (List String × String)).isNone
          then [("__sort", "_id::1")] else []) ++ [("a", "b")]) ∧
    ([("a", "b")] : List (String × String)) <:+ buildParams [("a", "b")] none :=
  ⟨(C8_amended [("a", "b")] none rfl).1 rfl,
   (C8_amended [("a", "b")] none rfl).2.2.2⟩

/-- C9: within a single cursor page, deduplication does not apply — when
every string `_id` occurring in the page is absent from the seen-identity
set, every record of the page is accepted, including two records carrying
the same fresh `_id` (the set is only consulted as it was before the page
and extended afterwards). -/
theorem C9_confirmed : ∀ (minSpec : Option Nat)
    (sortSpec : Option (List String × String)) (st : LoopState)
    (page coll : List Json),
    st.result = Json.arr coll →
    (∀ e ∈ page, ∀ id, (e.get "_id").bind Json.asStr = some id →
        id ∉ st.indexedIds) →
    stepPagedResult minSpec sortSpec st page = some (Json.arr (coll ++ page)) := by
  intro minSpec sortSpec st page coll hres hfresh
  have hfilter : page.filter (dedupAccept st.indexedIds) = page := by
    rw [List.filter_eq_self]
    intro e he
    cases hid : (e.get "_id").bind Json.asStr with
    | none => simp [dedupAccept, hid]
    | some id =>
      simp only [dedupAccept, hid, decide_eq_true_eq]
      exact hfresh e he id hid
  unfold stepPagedResult stepPaged
  rw [hres]
  show some (Json.arr (coll ++ page.filter (dedupAccept st.indexedIds))) = _
  rw [hfilter]

/-- C9 witness: the claim at the concrete page `c9Page`, whose two records
carry the same fresh string `_id` — both are accepted into the aggregate. -/
theorem C9_confirmed_witness :
    stepPagedResult none none initState c9Page = some (Json.arr ([] ++ c9Page)) :=
  C9_confirmed none none initState c9Page [] rfl
    (fun _ _ id _ => List.not_mem_nil id)

/-- C10: a record whose `_id` is a JSON number passes the dedup filter
against every seen-identity set (so it can never be deduplicated),
contributes no entry to the page's collected ids (so it is never recorded
as seen), and as a last record its numeric `_id` still resolves to an
`_id_next` continuation parameter carrying the number's decimal string. -/
theorem C10_confirmed : ∀ (ids : List String) (e : Json) (ns : String),
    e.get "_id" = some (Json.num ns) →
    dedupAccept ids e = true ∧
    pageIds [e] = [] ∧
    extendIds ids (pageIds [e]) = ids ∧
    deriveParam e ["_id"] = some ("_id_next", ns) := by
  intro ids e ns h
  have hbind : (e.get "_id").bind Json.asStr = none := by rw [h]; rfl
  have hpids : pageIds [e] = [] := by simp [pageIds, hbind]
  refine ⟨?_, hpids, ?_, ?_⟩
  · simp [dedupAccept, hbind]
  · rw [hpids]
    rfl
  · have hw : walkAux (some e) none ["_id"] = (some (Json.num ns), some "_id") := by
      simp only [walkAux, h]
    unfold deriveParam
    rw [hw]
    rfl

/-- C10 witness: the claim at a concrete record `{"_id": 7}` against the
seen set `["z"]`. -/
theorem C10_confirmed_witness :
    dedupAccept ["z"] (Json.obj [("_id", Json.num "7")]) = true ∧
    pageIds [Json.obj [("_id", Json.num "7")]] = [] ∧
    extendIds ["z"] (pageIds [Json.obj [("_id", Json.num "7")]]) = ["z"] ∧
    deriveParam (Json.obj [("_id", Json.num "7")]) ["_id"] =
      some ("_id_next", "7") :=
  C10_confirmed ["z"] (Json.obj [("_id", Json.num "7")]) "7" rfl

end QParas
